import Mathlib

/-!
Verification of the dynamic-form module (src/dynamic_form/dynamic_form.py)
against its natural-language specification.

The Python module renders a notebook form whose fields are rebuilt from a
collection schema and kept consistent via a constraint-propagation handler.
This file gives a shallow embedding of the module's data and control flow:

* raw schema records and the normalizer form_json_to_widgets_dict
  (source lines 188-253);
* the widget state left by build_form (lines 42-174) together with the
  change handler on_change (lines 63-88) and the radio-exclusivity handler
  on_radio_click (lines 132-137);
* the request extractor widgets_to_request (lines 255-284) and the
  entrypoint build_collection_form (lines 5-186).

Modelling conventions, stated once here:

* Python dicts that are only ever looked up (labels, widget maps) are
  association lists; List.lookup gives first-match semantics, and
  dict.update m n is modelled as n ++ m, which has the same lookup
  behaviour (new keys win).  Iteration order of label maps is not used by
  any property below.
* The host widget toolkit (ipywidgets / traitlets) is external to the
  repository; only the parts the module relies on are modelled, following
  the library's documented behaviour: assigning a new, different value to
  a widget's value trait synchronously fires the observers registered for
  that trait; assigning to a layout attribute fires none of them; the VBox
  container type exposes no value trait, so reading .value on it raises
  AttributeError.  The handler assigns options and value consecutively to
  a SelectMultiple (lines 87-88); the two assignments are modelled as one
  step whose observer event fires iff the net value changed.
* The handler's mutable closure dict named selection is overwritten, for
  every field key, at the start of every handler activation before it is
  read, and is read nowhere else; it is threaded explicitly through the
  embedding so that re-entrant activations see the writes of inner ones,
  exactly as the shared Python dict does.
-/

/-! ## Association-list helpers (Python dict viewed through lookup) -/

abbrev LabelMap := List (String × String)

/-- Keys of an association list, in insertion order. -/
def alKeys {α : Type} (m : List (String × α)) : List String :=
  m.map Prod.fst

/-- Python dict.update: entries of the second map take precedence on lookup. -/
def dictUpdate (m n : LabelMap) : LabelMap :=
  n ++ m

/-! ## Raw schema records (input of form_json_to_widgets_dict)

A raw field record is a loosely-typed JSON object; the fields below are the
keys the module reads, each Option when the module distinguishes a missing
key (via dict.get defaults) and a plain default value when an absent key and
an empty value are indistinguishable to the module.  The key named default
in the details substructure is carried (the raw schema defines it) although
the normalizer never reads it. -/

structure RawGroup where
  labels : LabelMap
  values : List String
  columns : Option Nat
deriving DecidableEq

structure RawDetails where
  labels : LabelMap
  values : List String
  columns : Option Nat
  groups : Option (List RawGroup)
  defaults : List String
deriving DecidableEq

/-- The empty details dict, the default of widget.get applied to details. -/
def RawDetails.empty : RawDetails :=
  { labels := [], values := [], columns := none, groups := none, defaults := [] }

structure RawWidget where
  name : Option String
  type : Option String
  label : Option String
  details : RawDetails
deriving DecidableEq

/-! ## Normalized field definitions (entries of the output dict)

Lines 232-252 first copy the optional raw label and type keys and then
overwrite labels, values, title, type and columns; the net entry is the
record below (the raw type copy is always overwritten at line 251, the raw
label copy survives). -/

structure WidgetDef where
  label : Option String
  labels : LabelMap
  values : List String
  title : String
  type : String
  columns : Nat
deriving DecidableEq

/-- Default first argument of form_json_to_widgets_dict (lines 190-193). -/
def ignore_widget_names : List String :=
  ["download_format", "data_format"]

/-- Default second argument of form_json_to_widgets_dict (lines 194-200). -/
def ignore_widget_types : List String :=
  ["ExclusiveGroupWidget", "FreeEditionWidget", "GeographicExtentWidget",
   "GeographicLocationWidget", "LicenceWidget"]

/-- widget_map.get(widget_type, widget_type), lines 220-224 and 251. -/
def widget_map_get (t : String) : String :=
  if t = "StringListWidget" then "checkbox"
  else if t = "StringListArrayWidget" then "checkbox"
  else if t = "StringChoiceWidget" then "radio"
  else t

/-- Line 241: labels.update(group.get("labels", {})) folded over the groups. -/
def mergeGroupLabels (gs : List RawGroup) : LabelMap :=
  gs.foldl (fun labels g => dictUpdate labels g.labels) []

/-- Line 242: values += [v for v in group.get("values", []) if v not in values].
The comprehension is evaluated against the accumulator as it was before the
append, so a duplicate inside one group passes the filter twice. -/
def mergeGroupValues (gs : List RawGroup) : List String :=
  gs.foldl (fun values g => values ++ g.values.filter (fun v => !(values.contains v))) []

/-- Line 243: columns = max(columns, group.get("columns", 1)), starting at 1. -/
def mergeGroupColumns (gs : List RawGroup) : Nat :=
  gs.foldl (fun columns g => max columns (g.columns.getD 1)) 1

/-- The normalized entry written for one raw record, lines 232-252. -/
def normalizeWidget (w : RawWidget) : WidgetDef :=
  let details := w.details
  let merged : LabelMap × List String × Nat :=
    match details.groups with
    | some gs => (mergeGroupLabels gs, mergeGroupValues gs, mergeGroupColumns gs)
    | none => (details.labels, details.values, details.columns.getD 1)
  { label := w.label
    labels := merged.1
    values := merged.2.1
    title := w.label.getD ""
    type := widget_map_get (w.type.getD "")
    columns := merged.2.2 }

/-- The for-loop of lines 225-252 with the accumulated output dict explicit. -/
def formLoop (ignoreNames ignoreTypes : List String) :
    List RawWidget → List (String × WidgetDef) → List (String × WidgetDef)
  | [], out => out
  | w :: ws, out =>
    let widgetName := w.name.getD ""
    let widgetType := w.type.getD ""
    if widgetName ∈ ignoreNames ∨ widgetType ∈ ignoreTypes then
      formLoop ignoreNames ignoreTypes ws out
    else if (List.lookup widgetName out).isSome then
      formLoop ignoreNames ignoreTypes ws out
    else
      formLoop ignoreNames ignoreTypes ws (out ++ [(widgetName, normalizeWidget w)])

/-- form_json_to_widgets_dict, lines 188-253.  The ignore lists are explicit
arguments; the module's defaults are ignore_widget_names and
ignore_widget_types above. -/
def form_json_to_widgets_dict (form : List RawWidget)
    (ignoreNames ignoreTypes : List String) : List (String × WidgetDef) :=
  formLoop ignoreNames ignoreTypes form []

/-! ## Widget state built by build_form (lines 90-165)

build_form constructs, per normalized field, one of three controls:

* checkbox (lines 96-120): a VBox holding a grid of ToggleButton controls,
  one per option, each initially False, with a value getter returning the
  options whose button is toggled (get_toggle_value, lines 106-107);
* radio (lines 122-156): the same construction, with get_radio_value
  (lines 142-146) returning the first toggled option as a singleton;
* SelectMultiple (lines 158-165) for any other type tag.

The branch of on_change for widgets.RadioButtons (lines 82-85) is
unreachable, because build_form never constructs a RadioButtons control;
it is therefore not part of the state model.  Both the checkbox and the
radio construction carry the per-button visibility flags that on_change
toggles via layout.display (lines 77-81); at construction every button is
visible and the button list is index-aligned with the options list. -/

inductive FieldWidget where
  | checkbox (options : List String) (states : List Bool) (visible : List Bool)
  | radio (options : List String) (states : List Bool) (visible : List Bool)
  | selectMultiple (options : List String) (value : List String)
deriving DecidableEq

abbrev Defs := List (String × FieldWidget)

abbrev Snap := List (String × List String)

/-- widget._get_value(): get_toggle_value for checkbox grids, get_radio_value
for radio grids, list(widget.value) for SelectMultiple. -/
def getValue : FieldWidget → List String
  | .checkbox opts states _ =>
    ((opts.zip states).filter (fun p => p.2)).map Prod.fst
  | .radio opts states _ =>
    match (opts.zip states).find? (fun p => p.2) with
    | some p => [p.1]
    | none => []
  | .selectMultiple _ v => v

/-- The options currently offered to the user: the visible buttons of a
toggle grid (hiding via layout.display is how on_change applies an allowed
set to them, lines 77-81), and the options list of a SelectMultiple. -/
def allowedValues : FieldWidget → List String
  | .checkbox opts _ visible => ((opts.zip visible).filter (fun p => p.2)).map Prod.fst
  | .radio opts _ visible => ((opts.zip visible).filter (fun p => p.2)).map Prod.fst
  | .selectMultiple opts _ => opts

/-- Lines 64-65: selection[key] = widget._get_value() for every field. -/
def snapshot (defs : Defs) : Snap :=
  defs.map (fun p => (p.1, getValue p.2))

/-- Line 68: {k: v for k, v in selection.items() if v}. -/
def nonEmptySelection (sel : Snap) : Snap :=
  sel.filter (fun kv => !kv.2.isEmpty)

/-- Replace the widget stored under a key of widget_defs. -/
def setKey (key : String) (w : FieldWidget) (defs : Defs) : Defs :=
  defs.map (fun p => if p.1 = key then (key, w) else p)

/-- The collection resource of line 57: the external collaborator carrying
apply_constraints.  A returned none models the external call raising. -/
structure Ctx where
  apply_constraints : Snap → Option Snap

/-- Outcome channel of one handler activation: a constraint failure carries
the widget state at the moment the exception escapes (Python performs no
rollback of mutations already made), and fuel exhaustion bounds the modelled
re-entrancy depth (the Python source has no such bound). -/
inductive CycleErr where
  | constraintError (state : Defs)
  | outOfFuel
deriving DecidableEq

instance {ε α : Type} [DecidableEq ε] [DecidableEq α] : DecidableEq (Except ε α) :=
  fun a b =>
    match a, b with
    | .ok x, .ok y =>
      if h : x = y then .isTrue (by rw [h]) else .isFalse (by simp [h])
    | .ok _, .error _ => .isFalse (by simp)
    | .error _, .ok _ => .isFalse (by simp)
    | .error x, .error y =>
      if h : x = y then .isTrue (by rw [h]) else .isFalse (by simp [h])

/-- The application loop of lines 71-88: for each key of the constraint
response present in widget_defs, hide the toggle buttons whose option is not
allowed (lines 76-81), or assign the SelectMultiple its new options and the
filtered selection (lines 86-88).  The value assignment of line 88 fires the
observers registered at line 163 when the assigned tuple differs from the
widget's value, re-entering on_change; recur is that re-entry (none once the
modelled depth budget is spent).  The shared selection dict is threaded, so
an inner activation's writes are what the remaining iterations read. -/
def apply_allowed_options
    (recur : Option (Defs → Except CycleErr (Defs × Snap × Nat))) :
    Snap → Snap → Defs → Except CycleErr (Defs × Snap × Nat)
  | sel, [], defs => .ok (defs, sel, 0)
  | sel, (key, values) :: rest, defs =>
    match List.lookup key defs with
    | none => apply_allowed_options recur sel rest defs
    | some (.checkbox opts states _) =>
      apply_allowed_options recur sel rest
        (setKey key (.checkbox opts states (opts.map (fun o => values.contains o))) defs)
    | some (.radio opts states _) =>
      apply_allowed_options recur sel rest
        (setKey key (.radio opts states (opts.map (fun o => values.contains o))) defs)
    | some (.selectMultiple _ oldValue) =>
      let newValue := ((List.lookup key sel).getD []).filter (fun v => values.contains v)
      let defs2 := setKey key (.selectMultiple values newValue) defs
      if newValue = oldValue then
        apply_allowed_options recur sel rest defs2
      else
        match recur with
        | none => .error .outOfFuel
        | some f =>
          match f defs2 with
          | .error e => .error e
          | .ok (d2, s2, c2) =>
            match apply_allowed_options recur s2 rest d2 with
            | .error e => .error e
            | .ok (d3, s3, c3) => .ok (d3, s3, c2 + c3)

/-- One activation of the change handler on_change (lines 63-88), run with a
re-entrancy budget.  Steps: rewrite the shared selection dict from the
widgets (lines 64-65), call apply_constraints on the non-empty entries
(lines 67-69) — a raise aborts the activation with the current widget state
— then run the application loop.  The returned Nat counts the
apply_constraints invocations performed by this activation, re-entrant ones
included. -/
def on_change (ctx : Ctx) : Nat → Defs → Except CycleErr (Defs × Snap × Nat)
  | fuel, defs =>
    let selection := snapshot defs
    match ctx.apply_constraints (nonEmptySelection selection) with
    | none => .error (.constraintError defs)
    | some allowedOptions =>
      let recur : Option (Defs → Except CycleErr (Defs × Snap × Nat)) :=
        match fuel with
        | 0 => none
        | fuel2 + 1 => some (on_change ctx fuel2)
      match apply_allowed_options recur selection allowedOptions defs with
      | .error e => .error e
      | .ok (d, s, c) => .ok (d, s, c + 1)

/-! ## Form construction (build_form, lines 42-174) and the entrypoint -/

/-- The collection resource's pure data: title and raw schema (line 57 and
line 59); apply_constraints lives in Ctx. -/
structure Collection where
  title : String
  form : List RawWidget
deriving DecidableEq

/-- The control constructed for one normalized field, lines 90-165: every
toggle button starts False (lines 98-99 and 124-125) and visible, a
SelectMultiple starts with the full options list and the empty selection.
The type tag is read with default checkbox (line 91); the normalizer always
writes the type key, so the field is read directly. -/
def buildWidget (f : WidgetDef) : FieldWidget :=
  if f.type = "checkbox" then
    .checkbox f.values (f.values.map (fun _ => false)) (f.values.map (fun _ => true))
  else if f.type = "radio" then
    .radio f.values (f.values.map (fun _ => false)) (f.values.map (fun _ => true))
  else
    .selectMultiple f.values []

/-- The widget_defs dict a run of build_form leaves behind, lines 59 and
90-174.  build_form wires the observers and displays the widgets but calls
neither on_change nor apply_constraints: the state below is the state the
form is exposed with. -/
def build_form (c : Collection) : Defs :=
  (form_json_to_widgets_dict c.form ignore_widget_names ignore_widget_types).map
    (fun p => (p.1, buildWidget p.2))

/-- The external client of line 6: get_collections().collection_ids and
get_collection(collection_id). -/
structure Client where
  collection_ids : List String
  get_collection : String → Collection

/-- build_collection_form, lines 5-186, reduced to the state it computes:
sort the collection ids (line 33), initialise the dropdown with
collections[0] (line 39) — an empty list makes that indexing raise
IndexError, modelled as none — and build the form of the first collection
(line 183). -/
def build_collection_form (client : Client) : Option (String × Defs) :=
  let collections := client.collection_ids.mergeSort (fun a b => decide (a ≤ b))
  match collections with
  | [] => none
  | c0 :: _ => some (c0, build_form (client.get_collection c0))

/-! ## Request extraction (widgets_to_request, lines 255-284) -/

/-- Reading the value attribute of a control, as line 278 does: the VBox
containers built for checkbox and radio fields expose no value trait, so
the read raises AttributeError (none); a SelectMultiple yields its value. -/
def valueAttr : FieldWidget → Option (List String)
  | .checkbox _ _ _ => none
  | .radio _ _ _ => none
  | .selectMultiple _ v => some v

/-- A value of the final request mapping: a scalar or a list. -/
inductive ReqVal where
  | scalar (s : String)
  | listVal (xs : List String)
deriving DecidableEq

/-- The dict comprehension of lines 275-279.  Every control build_form
stores has a _get_value attribute, so hasattr is True and the filter is
the truthiness of widget._get_value() or widget.value: an empty getter
result falls through to the value attribute read, which raises on the
toggle containers. -/
def requestEntries : Defs → Except Unit (List (String × List String))
  | [] => .ok []
  | (key, w) :: rest =>
    let gv := getValue w
    if gv.isEmpty then
      match valueAttr w with
      | none => .error ()
      | some v =>
        if v.isEmpty then requestEntries rest
        else
          match requestEntries rest with
          | .error e => .error e
          | .ok r => .ok ((key, gv) :: r)
    else
      match requestEntries rest with
      | .error e => .error e
      | .ok r => .ok ((key, gv) :: r)

/-- The collapsing loop of lines 280-282: a one-element list becomes its
element, everything else stays a list. -/
def collapseValues (r : List (String × List String)) : List (String × ReqVal) :=
  r.map (fun p =>
    match p.2 with
    | [v] => (p.1, .scalar v)
    | vs => (p.1, .listVal vs))

/-- widgets_to_request, lines 255-284: the dropdown value is the collection
id, the request is the comprehension followed by the collapsing loop. -/
def widgets_to_request (collection_id : String) (defs : Defs) :
    Except Unit (String × List (String × ReqVal)) :=
  match requestEntries defs with
  | .error e => .error e
  | .ok r => .ok (collection_id, collapseValues r)

/-! ## Radio exclusivity (on_radio_click, lines 132-137)

A user click flips one toggle button.  When the button turns on, the
handler sets every other button of the group to False (the observers those
assignments fire see new=False and do nothing) and then calls on_change,
which never writes any toggle button's value (it only toggles visibility),
so the field-local state transition is the one below. -/

/-- Set every entry except position i to false, keeping position i. -/
def clearOthers : Nat → List Bool → List Bool
  | _, [] => []
  | 0, s :: rest => s :: rest.map (fun _ => false)
  | i + 1, s2 :: rest => (fun _ => false) s2 :: clearOthers i rest

/-- The user clicks button i of a radio group: the button flips; if it
turned on, on_radio_click clears the others (lines 133-136).  If it turned
off, the handler does nothing (and, notably, on_change is not called).
Non-radio controls have no such handler. -/
def on_radio_click (i : Nat) : FieldWidget → FieldWidget
  | .radio opts states visible =>
    if states.getD i false then
      .radio opts (states.set i false) visible
    else
      .radio opts (clearOthers i (states.set i true)) visible
  | w => w

/-! ## Helper lemmas about the normalizer loop -/

lemma alKeys_append {α : Type} (m n : List (String × α)) :
    alKeys (m ++ n) = alKeys m ++ alKeys n := by
  simp [alKeys]

lemma formLoop_mem_keys {ns ts : List String} {n : String} :
    ∀ (ws : List RawWidget) (acc : List (String × WidgetDef)),
      n ∈ alKeys (formLoop ns ts ws acc) →
      n ∈ alKeys acc ∨
        ∃ w, w ∈ ws ∧ w.name.getD "" = n ∧ n ∉ ns ∧ w.type.getD "" ∉ ts := by
  intro ws
  induction ws with
  | nil => intro acc h; exact Or.inl h
  | cons w ws ih =>
    intro acc h
    rw [formLoop] at h
    by_cases h1 : w.name.getD "" ∈ ns ∨ w.type.getD "" ∈ ts
    · rw [if_pos h1] at h
      rcases ih _ h with h2 | ⟨w2, hw2, h3⟩
      · exact Or.inl h2
      · exact Or.inr ⟨w2, List.mem_cons_of_mem _ hw2, h3⟩
    · rw [if_neg h1] at h
      push_neg at h1
      by_cases h2 : (List.lookup (w.name.getD "") acc).isSome = true
      · rw [if_pos h2] at h
        rcases ih _ h with h3 | ⟨w2, hw2, h4⟩
        · exact Or.inl h3
        · exact Or.inr ⟨w2, List.mem_cons_of_mem _ hw2, h4⟩
      · rw [if_neg h2] at h
        rcases ih _ h with h3 | ⟨w2, hw2, h4⟩
        · rw [alKeys_append] at h3
          rcases List.mem_append.mp h3 with h4 | h5
          · exact Or.inl h4
          · have h6 : n = w.name.getD "" := by
              simpa [alKeys] using h5
            subst h6
            exact Or.inr ⟨w, List.mem_cons_self _ _, rfl, h1.1, h1.2⟩
        · exact Or.inr ⟨w2, List.mem_cons_of_mem _ hw2, h4⟩

lemma formLoop_lookup_stable {ns ts : List String} {n : String} :
    ∀ (ws : List RawWidget) (acc : List (String × WidgetDef)),
      (List.lookup n acc).isSome = true →
      List.lookup n (formLoop ns ts ws acc) = List.lookup n acc := by
  intro ws
  induction ws with
  | nil => intro acc _; rw [formLoop]
  | cons w ws ih =>
    intro acc hsome
    rw [formLoop]
    by_cases h1 : w.name.getD "" ∈ ns ∨ w.type.getD "" ∈ ts
    · rw [if_pos h1]; exact ih _ hsome
    · rw [if_neg h1]
      by_cases h2 : (List.lookup (w.name.getD "") acc).isSome = true
      · rw [if_pos h2]; exact ih _ hsome
      · rw [if_neg h2]
        have hkeep : List.lookup n (acc ++ [(w.name.getD "", normalizeWidget w)])
            = List.lookup n acc := by
          rw [List.lookup_append]
          obtain ⟨v, hv⟩ := Option.isSome_iff_exists.mp hsome
          rw [hv]; rfl
        rw [ih _ (by rw [hkeep]; exact hsome), hkeep]

/-! ## C7: the exclusion filter -/

/-- C7: a raw record whose name is in the ignored-names list, or whose name
is only ever declared with a kind in the ignored-kinds list, contributes no
entry to the normalized output: the name is absent from the output keys.
In particular a record named download_format is dropped regardless of its
kind, since that name is in the module's default ignored-names list. -/
theorem C7_exclusion_filter (form : List RawWidget) (ns ts : List String) (n : String)
    (h : n ∈ ns ∨ ∀ w ∈ form, w.name.getD "" = n → w.type.getD "" ∈ ts) :
    n ∉ alKeys (form_json_to_widgets_dict form ns ts) := by
  intro hmem
  rw [form_json_to_widgets_dict] at hmem
  rcases formLoop_mem_keys form [] hmem with h1 | ⟨w, hw, hn, hns, hts⟩
  · simp [alKeys] at h1
  · rcases h with h2 | h2
    · exact hns (hn ▸ h2)
    · exact hts (h2 w hw hn)

/-- Witness for C7: a record named download_format with a constraining kind
and real values is still dropped. -/
theorem C7_exclusion_filter_witness :
    "download_format" ∉ alKeys (form_json_to_widgets_dict
      [{ name := some "download_format", type := some "StringListWidget",
         label := some "Format",
         details := { labels := [], values := ["grib", "netcdf"],
                      columns := none, groups := none, defaults := [] } }]
      ignore_widget_names ignore_widget_types) :=
  C7_exclusion_filter _ _ _ _ (Or.inl (by decide))

/-! ## C9: duplicate names keep the first occurrence -/

/-- C9: when the same name occurs more than once in the raw list, the
normalized output binds that name to the definition derived from the first
occurrence; later records with the same name are discarded (whatever their
contents), and the function is total, so nothing is raised. -/
theorem C9_duplicate_first_wins (ns ts : List String) (w1 : RawWidget)
    (rest : List RawWidget)
    (h1 : w1.name.getD "" ∉ ns) (h2 : w1.type.getD "" ∉ ts) :
    List.lookup (w1.name.getD "") (form_json_to_widgets_dict (w1 :: rest) ns ts)
      = some (normalizeWidget w1) := by
  rw [form_json_to_widgets_dict, formLoop]
  rw [if_neg (by rw [not_or]; exact ⟨h1, h2⟩)]
  rw [if_neg (by simp)]
  rw [formLoop_lookup_stable rest _ (by simp)]
  simp

/-- Witness for C9: two records named year, the second with different
values; the output keeps the first record's definition. -/
theorem C9_duplicate_first_wins_witness :
    List.lookup "year"
      (form_json_to_widgets_dict
        [{ name := some "year", type := some "StringChoiceWidget",
           label := some "Year",
           details := { labels := [], values := ["2020", "2021"],
                        columns := none, groups := none, defaults := [] } },
         { name := some "year", type := some "StringListWidget",
           label := some "Year again",
           details := { labels := [], values := ["1999"],
                        columns := none, groups := none, defaults := [] } }]
        ignore_widget_names ignore_widget_types)
      = some (normalizeWidget
        { name := some "year", type := some "StringChoiceWidget",
          label := some "Year",
          details := { labels := [], values := ["2020", "2021"],
                       columns := none, groups := none, defaults := [] } }) :=
  C9_duplicate_first_wins ignore_widget_names ignore_widget_types
    { name := some "year", type := some "StringChoiceWidget", label := some "Year",
      details := { labels := [], values := ["2020", "2021"],
                   columns := none, groups := none, defaults := [] } }
    [{ name := some "year", type := some "StringListWidget", label := some "Year again",
       details := { labels := [], values := ["1999"],
                    columns := none, groups := none, defaults := [] } }]
    (by decide) (by decide)

/-! ## C10: the entrypoint requires a non-empty collection list -/

/-- C10: build_collection_form fails exactly on a client whose collection
id list is empty — line 39 indexes element 0 of the sorted list, so the
non-empty list is an unstated precondition and the empty client produces a
failure (IndexError), not an empty form. -/
theorem C10_empty_collections_fail (client : Client) :
    build_collection_form client = none ↔ client.collection_ids = [] := by
  constructor
  · intro h
    rw [build_collection_form] at h
    rcases hm : client.collection_ids.mergeSort (fun a b => decide (a ≤ b)) with _ | ⟨c0, cs⟩
    · have := congrArg List.length hm
      rw [List.length_mergeSort] at this
      exact List.eq_nil_of_length_eq_zero this
    · rw [hm] at h
      simp at h
  · intro h
    simp [build_collection_form, h]

/-! ## C8: single-select exclusivity -/

lemma clearOthers_length : ∀ (i : Nat) (l : List Bool),
    (clearOthers i l).length = l.length := by
  intro i
  induction i with
  | zero =>
    intro l
    cases l with
    | nil => rfl
    | cons s rest => simp [clearOthers]
  | succ i ih =>
    intro l
    cases l with
    | nil => rfl
    | cons s rest => simp [clearOthers, ih]

lemma mapFalse_getD (l : List Bool) : ∀ (k : Nat),
    (l.map (fun _ => false)).getD k false = false := by
  induction l with
  | nil => intro k; rfl
  | cons s rest ih =>
    intro k
    cases k with
    | zero => rfl
    | succ k => exact ih k

lemma clearOthers_getD_ne : ∀ (i j : Nat) (l : List Bool), j ≠ i →
    (clearOthers i l).getD j false = false := by
  intro i
  induction i with
  | zero =>
    intro j l hj
    cases l with
    | nil => simp [clearOthers, List.getD]
    | cons s rest =>
      cases j with
      | zero => exact absurd rfl hj
      | succ j => exact mapFalse_getD rest j
  | succ i ih =>
    intro j l hj
    cases l with
    | nil => simp [clearOthers, List.getD]
    | cons s rest =>
      cases j with
      | zero => rfl
      | succ j =>
        simpa [clearOthers, List.getD] using ih j rest (fun h => hj (by rw [h]))

lemma getValue_radio_clear : ∀ (opts : List String) (states : List Bool)
    (visible : List Bool) (i : Nat),
    states.length = opts.length → i < opts.length →
    getValue (.radio opts (clearOthers i (states.set i true)) visible)
      = [opts.getD i ""] := by
  intro opts
  induction opts with
  | nil =>
    intro states visible i _ hi
    exact absurd hi (by simp)
  | cons o opts ih =>
    intro states visible i hlen hi
    cases states with
    | nil => exact absurd hlen (by simp)
    | cons s states =>
      cases i with
      | zero =>
        simp [List.set, clearOthers, getValue, List.find?]
      | succ i =>
        have h1 : getValue (.radio opts (clearOthers i (states.set i true)) visible)
            = [opts.getD i ""] :=
          ih states visible i (by simpa using hlen) (by simpa using hi)
        simp only [List.set, clearOthers, getValue, List.zip_cons_cons,
          List.find?] at h1 ⊢
        exact h1

/-- C8: on a single-select (radio) field, a click that selects option j
clears whatever option was selected before: after clicking i and then
clicking a different j, the selection is exactly the singleton of option j.
Moreover the selection of a radio field never holds more than one value
(get_radio_value returns the first toggled option or nothing). -/
theorem C8_single_select_exclusive (opts : List String) (states visible : List Bool)
    (i j : Nat) (hlen : states.length = opts.length)
    (hi : i < opts.length) (hj : j < opts.length) (hij : j ≠ i)
    (hoff : states.getD i false = false) :
    getValue (on_radio_click j (on_radio_click i (.radio opts states visible)))
      = [opts.getD j ""]
    ∧ ∀ states2 : List Bool,
        (getValue (FieldWidget.radio opts states2 visible)).length ≤ 1 := by
  constructor
  · rw [on_radio_click, if_neg (by rw [hoff]; exact Bool.false_ne_true)]
    rw [on_radio_click, if_neg (by
      rw [clearOthers_getD_ne i j _ hij]; exact Bool.false_ne_true)]
    have hlen2 : (clearOthers i (states.set i true)).length = opts.length := by
      rw [clearOthers_length, List.length_set, hlen]
    exact getValue_radio_clear opts _ visible j hlen2 hj
  · intro states2
    rw [getValue]
    cases hf : (opts.zip states2).find? (fun p => p.2) with
    | none => simp
    | some p => simp

/-- Witness for C8: a fresh two-option radio group, click x then click y:
only y remains selected. -/
theorem C8_single_select_exclusive_witness :
    getValue (on_radio_click 1 (on_radio_click 0
        (.radio ["x", "y"] [false, false] [true, true]))) = ["y"]
    ∧ ∀ states2 : List Bool,
        (getValue (FieldWidget.radio ["x", "y"] states2 [true, true])).length ≤ 1 := by
  have h := C8_single_select_exclusive ["x", "y"] [false, false] [true, true]
    0 1 (by decide) (by decide) (by decide) (by decide) (by decide)
  exact ⟨h.1, h.2⟩

/-! ## C6: the grouped-details merge rule -/

/-- First-occurrence deduplication over a flat list — the merge rule the
specification states for values (union in group order, deduplicating by
first occurrence). -/
def dedupFirstGo (seen : List String) : List String → List String
  | [] => []
  | x :: xs =>
    if seen.contains x then dedupFirstGo seen xs
    else x :: dedupFirstGo (seen ++ [x]) xs

/-- The claim's merged values: dedupFirst of the concatenated group values. -/
def dedupFirst (l : List String) : List String :=
  dedupFirstGo [] l

/-- Accumulator-free characterization of what line 242 computes: each group
contributes exactly its values that occur in no earlier group — so a value
repeated inside one group (and absent from earlier groups) is kept each
time that group repeats it, unlike first-occurrence deduplication. -/
def mergeValuesByGroup : List RawGroup → List RawGroup → List String
  | _, [] => []
  | earlier, g :: gs =>
    g.values.filter (fun v => !((earlier.flatMap (fun g2 => g2.values)).contains v))
      ++ mergeValuesByGroup (earlier ++ [g]) gs

lemma mergeGroupValues_characterize :
    ∀ (gs : List RawGroup) (acc : List String) (earlier : List RawGroup),
      (∀ v, acc.contains v = (earlier.flatMap (fun g => g.values)).contains v) →
      gs.foldl (fun values g =>
          values ++ g.values.filter (fun v => !(values.contains v))) acc
        = acc ++ mergeValuesByGroup earlier gs := by
  intro gs
  induction gs with
  | nil => intro acc earlier _; simp [mergeValuesByGroup]
  | cons g gs ih =>
    intro acc earlier h
    rw [List.foldl_cons, mergeValuesByGroup]
    have hfilter : g.values.filter (fun v => !(acc.contains v))
        = g.values.filter
            (fun v => !((earlier.flatMap (fun g2 => g2.values)).contains v)) :=
      List.filter_congr (fun a _ => by rw [h a])
    have hpre : ∀ v,
        (acc ++ g.values.filter (fun v => !(acc.contains v))).contains v
          = ((earlier ++ [g]).flatMap (fun g2 => g2.values)).contains v := by
      intro v
      have h1 := h v
      simp only [List.flatMap_append, List.flatMap_cons, List.flatMap_nil,
        List.append_nil]
      by_cases hv : v ∈ earlier.flatMap (fun g2 => g2.values) <;>
        by_cases hg : v ∈ g.values <;>
        simp_all [List.elem_iff, List.mem_filter]
    rw [hfilter] at hpre ⊢
    rw [ih _ _ hpre, List.append_assoc]

lemma mergeGroupLabels_foldl :
    ∀ (gs : List RawGroup) (acc : LabelMap),
      gs.foldl (fun labels g => dictUpdate labels g.labels) acc
        = gs.reverse.flatMap (fun g => g.labels) ++ acc := by
  intro gs
  induction gs with
  | nil => intro acc; simp
  | cons g gs ih =>
    intro acc
    rw [List.foldl_cons, ih, List.reverse_cons, List.flatMap_append]
    simp [dictUpdate]

lemma lookup_flatMap_labels :
    ∀ (hs : List RawGroup) (v : String),
      List.lookup v (hs.flatMap (fun g => g.labels))
        = hs.findSome? (fun g => List.lookup v g.labels) := by
  intro hs
  induction hs with
  | nil => intro v; rfl
  | cons g hs ih =>
    intro v
    rw [List.flatMap_cons, List.lookup_append, List.findSome?_cons, ih]
    cases List.lookup v g.labels <;> rfl

lemma foldr_max_swap (a x : Nat) :
    ∀ l : List Nat, l.foldr max (max a x) = max x (l.foldr max a) := by
  intro l
  induction l with
  | nil => exact Nat.max_comm a x
  | cons y l ih => rw [List.foldr_cons, List.foldr_cons, ih, Nat.max_left_comm]

lemma foldl_max_eq_foldr (l : List Nat) : ∀ a : Nat, l.foldl max a = l.foldr max a := by
  induction l with
  | nil => intro a; rfl
  | cons x l ih =>
    intro a
    rw [List.foldl_cons, ih (max a x), List.foldr_cons, foldr_max_swap]

/-- C6 amended: for a record whose details hold a groups list, the
normalized entry merges the groups with labels unioned last-write-wins
(lookup finds the last group defining the value) and columns the maximum
over the groups (each defaulting to 1, floor 1); the merged values are the
concatenation in group order in which each group keeps exactly its values
occurring in no earlier group — values repeated within a single group are
kept, not deduplicated by first occurrence (see the counterexample). -/
theorem C6_group_merge_amended (w : RawWidget) (gs : List RawGroup)
    (h : w.details.groups = some gs) :
    (normalizeWidget w).values = mergeValuesByGroup [] gs
    ∧ (∀ v, List.lookup v (normalizeWidget w).labels
        = gs.reverse.findSome? (fun g => List.lookup v g.labels))
    ∧ (normalizeWidget w).columns
        = (gs.map (fun g => g.columns.getD 1)).foldr max 1 := by
  refine ⟨?_, ?_, ?_⟩
  · simp only [normalizeWidget, h]
    exact mergeGroupValues_characterize gs [] [] (fun v => rfl)
  · intro v
    simp only [normalizeWidget, h]
    rw [mergeGroupLabels, mergeGroupLabels_foldl, List.append_nil,
      lookup_flatMap_labels]
  · simp only [normalizeWidget, h]
    rw [mergeGroupColumns,
      ← List.foldl_map (fun g : RawGroup => g.columns.getD 1) max,
      foldl_max_eq_foldr]

/-- Counterexample for C6 as stated: a single group that lists a value
twice.  The claim's first-occurrence deduplication yields the value once,
but line 242 evaluates the whole comprehension against the values list as
it was before the append, so both copies pass the filter and the
normalized values keep the duplicate. -/
theorem C6_group_merge_counterexample :
    (normalizeWidget { name := some "f", type := some "StringListWidget",
                       label := none,
                       details := { labels := [], values := [], columns := none,
                                    groups := some [{ labels := [],
                                                      values := ["a", "a"],
                                                      columns := none }],
                                    defaults := [] } }).values = ["a", "a"]
    ∧ dedupFirst
        (([{ labels := [], values := ["a", "a"], columns := none }] :
            List RawGroup).flatMap (fun g => g.values)) = ["a"]
    ∧ (["a", "a"] : List String) ≠ ["a"] :=
  ⟨rfl, rfl, by decide⟩


/-- The specification's own merge example as a concrete grouped record:
group values [a, b] then [b, c], labels A1 then A2 for the value a. -/
def sampleGroups : List RawGroup :=
  [{ labels := [("a", "A1")], values := ["a", "b"], columns := some 2 },
   { labels := [("a", "A2")], values := ["b", "c"], columns := some 3 }]

/-- A raw record carrying sampleGroups in its details. -/
def sampleGroupedWidget : RawWidget :=
  { name := some "g", type := some "StringListArrayWidget", label := some "G",
    details := { labels := [], values := [], columns := none,
                 groups := some sampleGroups, defaults := [] } }

/-- Witness for C6 amended, at the specification's own merge example. -/
theorem C6_group_merge_amended_witness :
    (normalizeWidget sampleGroupedWidget).values = mergeValuesByGroup [] sampleGroups
    ∧ List.lookup "a" (normalizeWidget sampleGroupedWidget).labels
        = sampleGroups.reverse.findSome? (fun g => List.lookup "a" g.labels)
    ∧ (normalizeWidget sampleGroupedWidget).columns
        = (sampleGroups.map (fun g => g.columns.getD 1)).foldr max 1 :=
  ⟨(C6_group_merge_amended sampleGroupedWidget sampleGroups rfl).1,
   (C6_group_merge_amended sampleGroupedWidget sampleGroups rfl).2.1 "a",
   (C6_group_merge_amended sampleGroupedWidget sampleGroups rfl).2.2⟩

/-! ## C5: the request extractor -/

/-- C5 (code defect): the filter of line 278 reads widget.value whenever
widget._get_value() is empty, and the VBox containers built for checkbox
and radio fields have no value attribute, so extracting a request from a
form in which any toggle field has an empty selection raises AttributeError
instead of omitting that field — contradicting the function's own
documentation, which promises a returned dictionary for widget dicts whose
members carry a _get_value method.  Where no toggle field is empty the
extractor behaves as the claim states: non-empty fields only, singleton
selections collapsed to scalars, larger selections kept as ordered lists. -/
theorem C5_request_extractor_divergence :
    widgets_to_request "collX" [("f", FieldWidget.checkbox ["a"] [false] [true])]
      = .error ()
    ∧ widgets_to_request "collX"
        [("freq", FieldWidget.radio ["monthly", "daily"] [true, false] [true, true]),
         ("vars", FieldWidget.selectMultiple ["t", "p"] ["t", "p"]),
         ("empty", FieldWidget.selectMultiple ["x", "y"] [])]
        = .ok ("collX", [("freq", ReqVal.scalar "monthly"),
                         ("vars", ReqVal.listVal ["t", "p"])]) :=
  ⟨rfl, rfl⟩

/-! ## C4: the state a rebuilt form is exposed with -/

lemma zip_false_filter (opts : List String) :
    ((opts.zip (opts.map fun _ => false)).filter (fun p => p.2)) = [] := by
  induction opts with
  | nil => rfl
  | cons o opts ih => simpa [List.filter] using ih

lemma zip_false_find (opts : List String) :
    (opts.zip (opts.map fun _ => false)).find? (fun p => p.2) = none := by
  induction opts with
  | nil => rfl
  | cons o opts ih => simpa [List.find?] using ih

lemma zip_true_filter_map (opts : List String) :
    (((opts.zip (opts.map fun _ => true)).filter (fun p => p.2)).map Prod.fst) = opts := by
  induction opts with
  | nil => rfl
  | cons o opts ih => simpa [List.filter] using ih

lemma getValue_buildWidget (f : WidgetDef) : getValue (buildWidget f) = [] := by
  rw [buildWidget]
  by_cases h1 : f.type = "checkbox"
  · rw [if_pos h1, getValue, zip_false_filter]; rfl
  · rw [if_neg h1]
    by_cases h2 : f.type = "radio"
    · rw [if_pos h2, getValue, zip_false_find]
    · rw [if_neg h2, getValue]

lemma allowedValues_buildWidget (f : WidgetDef) :
    allowedValues (buildWidget f) = f.values := by
  rw [buildWidget]
  by_cases h1 : f.type = "checkbox"
  · rw [if_pos h1, allowedValues, zip_true_filter_map]
  · rw [if_neg h1]
    by_cases h2 : f.type = "radio"
    · rw [if_pos h2, allowedValues, zip_true_filter_map]
    · rw [if_neg h2, allowedValues]

/-- C4 amended: build_form constructs a fresh controller per normalized
field, with EMPTY initial selection (every toggle button starts False, a
SelectMultiple starts with the empty tuple) and the field's full value list
as the initially offered options; the schema's default values are not
applied (the normalizer drops the default key), and no propagation cycle
runs before the form is exposed (see the counterexample against the
spec-modelled build). -/
theorem C4_fresh_form_amended (c : Collection) (k : String) (f : WidgetDef)
    (h : (k, f) ∈ form_json_to_widgets_dict c.form ignore_widget_names
      ignore_widget_types) :
    (k, buildWidget f) ∈ build_form c
    ∧ getValue (buildWidget f) = []
    ∧ allowedValues (buildWidget f) = f.values := by
  refine ⟨?_, getValue_buildWidget f, allowedValues_buildWidget f⟩
  rw [build_form]
  exact List.mem_map.mpr ⟨(k, f), h, rfl⟩

/-- Spec-modelled field application (spec section 4.2): apply_allowed
replaces the allowed values and recomputes the selection as the subset of
the previous selection still allowed, order preserved. -/
def apply_allowed_spec (values : List String) : FieldWidget → FieldWidget
  | .checkbox opts states _ =>
    .checkbox opts ((opts.zip states).map (fun p => p.2 && values.contains p.1))
      (opts.map (fun o => values.contains o))
  | .radio opts states _ =>
    .radio opts ((opts.zip states).map (fun p => p.2 && values.contains p.1))
      (opts.map (fun o => values.contains o))
  | .selectMultiple _ v =>
    .selectMultiple values (v.filter (fun x => values.contains x))

/-- Modelled from the spec: one guarded Propagation Engine cycle (spec
section 4.3) — snapshot, one apply_constraints call, apply each returned
entry to its Field Controller with no re-triggering; a failure aborts the
cycle without mutation.  This code does not exist in the module (build_form
runs no cycle); it is the behaviour the claim asserts. -/
def propagation_cycle_spec (ctx : Ctx) (defs : Defs) : Except CycleErr Defs :=
  match ctx.apply_constraints (nonEmptySelection (snapshot defs)) with
  | none => .error (.constraintError defs)
  | some allowed =>
    .ok (allowed.foldl (fun d kv =>
      match List.lookup kv.1 d with
      | none => d
      | some w => setKey kv.1 (apply_allowed_spec kv.2 w) d) defs)

/-- Modelled from the spec: the initial controller of spec section 4.4,
default_values as initial current_selection and the full values as initial
allowed_values.  The module never reads the raw default key, so this has no
counterpart in the code. -/
def initial_widget_spec (defaults : List String) (f : WidgetDef) : FieldWidget :=
  if f.type = "checkbox" then
    .checkbox f.values (f.values.map (fun v => defaults.contains v))
      (f.values.map (fun _ => true))
  else if f.type = "radio" then
    .radio f.values (f.values.map (fun v => defaults.contains v))
      (f.values.map (fun _ => true))
  else
    .selectMultiple f.values (f.values.filter (fun v => defaults.contains v))

/-- Modelled from the spec: the claimed build — fresh controllers carrying
the schema defaults, then exactly one propagation cycle before the form is
exposed (spec section 4.4). -/
def build_form_claimed (ctx : Ctx) (c : Collection) : Except CycleErr Defs :=
  let normalized := form_json_to_widgets_dict c.form ignore_widget_names
    ignore_widget_types
  let init : Defs := normalized.map (fun p =>
    let defaults := ((c.form.find? (fun w => w.name.getD "" == p.1)).map
      (fun w => w.details.defaults)).getD []
    (p.1, initial_widget_spec defaults p.2))
  propagation_cycle_spec ctx init

/-- A one-field collection whose field carries a schema default. -/
def defaultedCollection : Collection :=
  { title := "T",
    form := [{ name := some "f", type := some "StringListWidget",
               label := some "F",
               details := { labels := [], values := ["x"], columns := none,
                            groups := none, defaults := ["x"] } }] }

/-- Counterexample for C4 as stated: on a schema whose field has default
value x and a constraint function returning the empty mapping, the claimed
build exposes the default selected (the cycle leaves it untouched), but
build_form exposes the field unselected and performs no apply_constraints
call at all — the exposed states differ, so the claim's initial selection
and immediate cycle are both absent from the code. -/
theorem C4_fresh_form_counterexample :
    build_form_claimed { apply_constraints := fun _ => some [] } defaultedCollection
      = .ok [("f", FieldWidget.checkbox ["x"] [true] [true])]
    ∧ build_form defaultedCollection = [("f", FieldWidget.checkbox ["x"] [false] [true])]
    ∧ getValue (FieldWidget.checkbox ["x"] [true] [true]) = ["x"]
    ∧ getValue (FieldWidget.checkbox ["x"] [false] [true]) = []
    ∧ ([] : List String) ≠ ["x"] :=
  ⟨rfl, rfl, rfl, rfl, by decide⟩

/-- The normalized definition of the defaulted collection's single field. -/
def defaultedFieldDef : WidgetDef :=
  { label := some "F", labels := [], values := ["x"], title := "F",
    type := "checkbox", columns := 1 }

/-- Witness for C4 amended, at the defaulted one-field collection. -/
theorem C4_fresh_form_amended_witness :
    ("f", buildWidget defaultedFieldDef) ∈ build_form defaultedCollection
    ∧ getValue (buildWidget defaultedFieldDef) = []
    ∧ allowedValues (buildWidget defaultedFieldDef) = defaultedFieldDef.values :=
  C4_fresh_form_amended defaultedCollection "f" defaultedFieldDef (by decide)

/-! ## Engine lemmas shared by C1, C2 and C3 -/

lemma lookup_mem {β : Type} {k : String} {v : β} :
    ∀ {l : List (String × β)}, List.lookup k l = some v → (k, v) ∈ l := by
  intro l
  induction l with
  | nil => intro h; simp [List.lookup] at h
  | cons p l ih =>
    intro h
    obtain ⟨a, b⟩ := p
    by_cases hk : k = a
    · subst hk
      simp [List.lookup] at h
      subst h
      exact List.mem_cons_self _ _
    · have hb : (k == a) = false := beq_eq_false_iff_ne.mpr hk
      rw [List.lookup, hb] at h
      exact List.mem_cons_of_mem _ (ih h)

lemma mem_setKey {key : String} {w : FieldWidget} {defs : Defs} {p : String × FieldWidget}
    (hp : p ∈ setKey key w defs) : p = (key, w) ∨ p ∈ defs := by
  rw [setKey] at hp
  obtain ⟨q, hq, hf⟩ := List.mem_map.mp hp
  by_cases h : q.1 = key
  · rw [if_pos h] at hf
    exact Or.inl hf.symm
  · rw [if_neg h] at hf
    exact Or.inr (hf ▸ hq)

/-- The subset invariant, decidably, for a free multi-select control: its
selection lies within its option list.  Toggle grids carry no such
constraint (their toggled buttons are merely hidden, never cleared). -/
def selWithinB : FieldWidget → Bool
  | .selectMultiple opts v => v.all (fun x => opts.contains x)
  | _ => true

lemma selWithinB_checkbox (opts : List String) (states visible : List Bool) :
    selWithinB (.checkbox opts states visible) = true := rfl

lemma selWithinB_radio (opts : List String) (states visible : List Bool) :
    selWithinB (.radio opts states visible) = true := rfl

lemma selWithinB_filtered (values sel : List String) :
    selWithinB (.selectMultiple values (sel.filter (fun v => values.contains v)))
      = true := by
  rw [selWithinB, List.all_eq_true]
  intro x hx
  exact (List.mem_filter.mp hx).2

lemma setKey_preserves {key : String} {w : FieldWidget} {defs : Defs}
    (hw : selWithinB w = true) (hwf : ∀ p ∈ defs, selWithinB p.2 = true) :
    ∀ p ∈ setKey key w defs, selWithinB p.2 = true := by
  intro p hp
  rcases mem_setKey hp with h | h
  · rw [h]; exact hw
  · exact hwf p h

lemma apply_allowed_options_preserves
    (recur : Option (Defs → Except CycleErr (Defs × Snap × Nat)))
    (hrec : ∀ g, recur = some g → ∀ d0 d1 s1 c1,
      (∀ p ∈ d0, selWithinB p.2 = true) → g d0 = .ok (d1, s1, c1) →
      ∀ p ∈ d1, selWithinB p.2 = true) :
    ∀ (entries sel : Snap) (defs d : Defs) (s : Snap) (c : Nat),
      (∀ p ∈ defs, selWithinB p.2 = true) →
      apply_allowed_options recur sel entries defs = .ok (d, s, c) →
      ∀ p ∈ d, selWithinB p.2 = true := by
  intro entries
  induction entries with
  | nil =>
    intro sel defs d s c hwf h
    rw [apply_allowed_options] at h
    obtain ⟨h1, _, _⟩ : defs = d ∧ sel = s ∧ 0 = c := by simpa using h
    exact h1 ▸ hwf
  | cons e rest ih =>
    intro sel defs d s c hwf h
    obtain ⟨key, values⟩ := e
    rw [apply_allowed_options] at h
    cases hlk : List.lookup key defs with
    | none =>
      rw [hlk] at h
      exact ih sel defs d s c hwf h
    | some w =>
      rw [hlk] at h
      cases w with
      | checkbox opts states visible =>
        exact ih sel _ d s c
          (setKey_preserves (selWithinB_checkbox ..) hwf) h
      | radio opts states visible =>
        exact ih sel _ d s c
          (setKey_preserves (selWithinB_radio ..) hwf) h
      | selectMultiple opts0 oldValue =>
        simp only at h
        by_cases hne : ((List.lookup key sel).getD []).filter
            (fun v => values.contains v) = oldValue
        · rw [if_pos hne] at h
          exact ih sel _ d s c
            (setKey_preserves (selWithinB_filtered ..) hwf) h
        · rw [if_neg hne] at h
          cases hr : recur with
          | none => rw [hr] at h; simp at h
          | some g =>
            rw [hr] at h
            simp only at h
            cases hg : g (setKey key (.selectMultiple values
                (((List.lookup key sel).getD []).filter
                  (fun v => values.contains v))) defs) with
            | error e2 => rw [hg] at h; simp at h
            | ok r2 =>
              rw [hg] at h
              obtain ⟨d2, s2, c2⟩ := r2
              have hwf2 : ∀ p ∈ d2, selWithinB p.2 = true :=
                hrec g hr _ d2 s2 c2
                  (setKey_preserves (selWithinB_filtered ..) hwf) hg
              simp only at h
              rw [← hr] at h
              cases h3 : apply_allowed_options recur s2 rest d2 with
              | error e3 => rw [h3] at h; simp at h
              | ok r3 =>
                rw [h3] at h
                obtain ⟨d3, s3, c3⟩ := r3
                obtain ⟨hd, _, _⟩ : d3 = d ∧ s3 = s ∧ c2 + c3 = c := by
                  simpa using h
                exact hd ▸ ih s2 d2 d3 s3 c3 hwf2 h3

lemma on_change_preserves :
    ∀ (fuel : Nat) (ctx : Ctx) (defs d : Defs) (s : Snap) (c : Nat),
      (∀ p ∈ defs, selWithinB p.2 = true) →
      on_change ctx fuel defs = .ok (d, s, c) →
      ∀ p ∈ d, selWithinB p.2 = true := by
  intro fuel
  induction fuel with
  | zero =>
    intro ctx defs d s c hwf h
    rw [on_change] at h
    cases hc : ctx.apply_constraints (nonEmptySelection (snapshot defs)) with
    | none => rw [hc] at h; simp at h
    | some allowed =>
      rw [hc] at h
      simp only at h
      cases ha : apply_allowed_options none (snapshot defs) allowed defs with
      | error e => rw [ha] at h; simp at h
      | ok r =>
        rw [ha] at h
        obtain ⟨d1, s1, c1⟩ := r
        obtain ⟨hd, _, _⟩ : d1 = d ∧ s1 = s ∧ c1 + 1 = c := by simpa using h
        exact hd ▸ apply_allowed_options_preserves none (by intro g hg; cases hg)
          allowed (snapshot defs) defs d1 s1 c1 hwf ha
  | succ n ih =>
    intro ctx defs d s c hwf h
    rw [on_change] at h
    cases hc : ctx.apply_constraints (nonEmptySelection (snapshot defs)) with
    | none => rw [hc] at h; simp at h
    | some allowed =>
      rw [hc] at h
      simp only at h
      cases ha : apply_allowed_options (some (on_change ctx n)) (snapshot defs)
          allowed defs with
      | error e => rw [ha] at h; simp at h
      | ok r =>
        rw [ha] at h
        obtain ⟨d1, s1, c1⟩ := r
        obtain ⟨hd, _, _⟩ : d1 = d ∧ s1 = s ∧ c1 + 1 = c := by simpa using h
        refine hd ▸ apply_allowed_options_preserves (some (on_change ctx n))
          ?_ allowed (snapshot defs) defs d1 s1 c1 hwf ha
        intro g hg d0 d1x s1x c1x hwf0 hg0
        obtain rfl : on_change ctx n = g := by
          simpa using hg
        exact ih ctx d0 d1x s1x c1x hwf0 hg0

/-! ## C1: the subset invariant after a propagation cycle -/

/-- C1 amended: after every completed run of the change handler, every
free multi-select (SelectMultiple) field's selection is a subset of its
currently offered options — lines 86-88 assign the filtered tuple.  For
checkbox and radio toggle fields the invariant does NOT hold: lines 76-81
only hide the disallowed buttons, leaving toggled ones in the selection
(see the counterexample). -/
theorem C1_subset_invariant_amended (ctx : Ctx) (fuel : Nat)
    (defs d : Defs) (s : Snap) (c : Nat) (k : String)
    (opts v : List String) (x : String)
    (hwf : ∀ p ∈ defs, selWithinB p.2 = true)
    (h : on_change ctx fuel defs = .ok (d, s, c))
    (hmem : (k, FieldWidget.selectMultiple opts v) ∈ d)
    (hx : x ∈ getValue (FieldWidget.selectMultiple opts v)) :
    x ∈ allowedValues (FieldWidget.selectMultiple opts v) := by
  have hall := on_change_preserves fuel ctx defs d s c hwf h
    (k, .selectMultiple opts v) hmem
  rw [selWithinB] at hall
  rw [getValue] at hx
  rw [allowedValues]
  exact List.elem_iff.mp (List.all_eq_true.mp hall x hx)

/-- Counterexample for C1 as stated: one checkbox field with its only
option toggled; the constraint response disallows every value.  The cycle
hides the button but its value stays True, so after the cycle the selection
still holds the value while the offered options are empty — the disallowed
value is kept, not cleared. -/
theorem C1_subset_invariant_counterexample :
    on_change { apply_constraints := fun _ => some [("f", [])] } 1
        [("f", FieldWidget.checkbox ["a"] [true] [true])]
      = .ok ([("f", FieldWidget.checkbox ["a"] [true] [false])], [("f", ["a"])], 1)
    ∧ getValue (FieldWidget.checkbox ["a"] [true] [false]) = ["a"]
    ∧ allowedValues (FieldWidget.checkbox ["a"] [true] [false]) = []
    ∧ ("a" : String) ∉ ([] : List String) :=
  ⟨rfl, rfl, rfl, by decide⟩

/-- Witness for C1 amended: a one-field SelectMultiple form through one
cycle whose constraint response is empty. -/
theorem C1_subset_invariant_amended_witness :
    "a" ∈ allowedValues (FieldWidget.selectMultiple ["a"] ["a"]) :=
  C1_subset_invariant_amended { apply_constraints := fun _ => some [] } 1
    [("f", FieldWidget.selectMultiple ["a"] ["a"])]
    [("f", FieldWidget.selectMultiple ["a"] ["a"])] [("f", ["a"])] 1
    "f" ["a"] ["a"] "a" (by decide) rfl (by decide) (by decide)

/-! ## C2: one apply_constraints call per user change -/

/-- True of every control except a SelectMultiple. -/
def notSelectMultipleB : FieldWidget → Bool
  | .selectMultiple _ _ => false
  | _ => true

lemma apply_allowed_options_toggle_only
    (recur : Option (Defs → Except CycleErr (Defs × Snap × Nat))) :
    ∀ (entries sel : Snap) (defs : Defs),
      (∀ p ∈ defs, notSelectMultipleB p.2 = true) →
      ∃ d, apply_allowed_options recur sel entries defs = .ok (d, sel, 0) := by
  intro entries
  induction entries with
  | nil =>
    intro sel defs _
    exact ⟨defs, rfl⟩
  | cons e rest ih =>
    intro sel defs hwf
    obtain ⟨key, values⟩ := e
    rw [apply_allowed_options]
    cases hlk : List.lookup key defs with
    | none => exact ih sel defs hwf
    | some w =>
      cases w with
      | checkbox opts states visible =>
        refine ih sel _ ?_
        intro p hp
        rcases mem_setKey hp with h | h
        · rw [h]; rfl
        · exact hwf p h
      | radio opts states visible =>
        refine ih sel _ ?_
        intro p hp
        rcases mem_setKey hp with h | h
        · rw [h]; rfl
        · exact hwf p h
      | selectMultiple opts0 oldValue =>
        have := hwf (key, .selectMultiple opts0 oldValue) (lookup_mem hlk)
        simp [notSelectMultipleB] at this

/-- C2 amended: when the form holds only toggle (checkbox / radio) fields,
a user change runs apply_constraints exactly once — the handler's own
mutations are layout.display writes that fire no value observer.  The
claim fails for forms with a SelectMultiple field: the assignment of
line 88 re-fires the handler, so one user change can invoke
apply_constraints more than once (see the counterexample). -/
theorem C2_single_constraint_call_amended (ctx : Ctx) (fuel : Nat) (defs : Defs)
    (m : Snap)
    (htoggle : ∀ p ∈ defs, notSelectMultipleB p.2 = true)
    (hc : ctx.apply_constraints (nonEmptySelection (snapshot defs)) = some m) :
    (on_change ctx fuel defs).map (fun r => r.2.2) = .ok 1 := by
  cases fuel with
  | zero =>
    obtain ⟨d, happ⟩ :=
      apply_allowed_options_toggle_only none m (snapshot defs) defs htoggle
    rw [on_change]
    simp [hc, happ, Except.map]
  | succ n =>
    obtain ⟨d, happ⟩ :=
      apply_allowed_options_toggle_only (some (on_change ctx n)) m
        (snapshot defs) defs htoggle
    rw [on_change]
    simp [hc, happ, Except.map]

/-- Counterexample for C2 as stated: a SelectMultiple field selected
[a, b] while the constraint response allows only [a].  Applying the
response assigns a changed value, which re-fires the handler: the single
user change invokes apply_constraints twice, not exactly once. -/
theorem C2_single_constraint_call_counterexample :
    (on_change { apply_constraints := fun _ => some [("f", ["a"])] } 5
        [("f", FieldWidget.selectMultiple ["a", "b"] ["a", "b"])]).map
          (fun r => r.2.2)
      = .ok 2
    ∧ (2 : Nat) ≠ 1 :=
  ⟨rfl, by decide⟩

/-- Witness for C2 amended: a toggle-only form through one cycle. -/
theorem C2_single_constraint_call_amended_witness :
    (on_change { apply_constraints := fun _ => some [("f", ["a"])] } 3
        [("f", FieldWidget.checkbox ["a", "b"] [true, false] [true, true])]).map
          (fun r => r.2.2)
      = .ok 1 :=
  C2_single_constraint_call_amended
    { apply_constraints := fun _ => some [("f", ["a"])] } 3
    [("f", FieldWidget.checkbox ["a", "b"] [true, false] [true, true])]
    [("f", ["a"])] (by decide) rfl

/-! ## C3: behaviour when apply_constraints raises -/

/-- C3 amended: when the activation's own apply_constraints call raises,
the handler has mutated nothing yet — lines 64-65 only rewrite the local
snapshot dict — so the exception propagates (there is no try/except in
on_change) and every field controller still holds its pre-cycle state: the
error carries the entry state unchanged.  The claim's blanket atomicity
fails, however, when a re-entrant nested activation's call raises: widget
mutations already made by the outer activation persist, Python performing
no rollback (see the counterexample). -/
theorem C3_atomic_failure_amended (ctx : Ctx) (fuel : Nat) (defs : Defs)
    (h : ctx.apply_constraints (nonEmptySelection (snapshot defs)) = none) :
    on_change ctx fuel defs = .error (.constraintError defs) := by
  rw [on_change.eq_def]
  simp [h]

/-- Counterexample for C3 as stated: the constraint function succeeds on
the user's snapshot, the engine assigns the filtered SelectMultiple value,
the assignment re-fires the handler, and the nested call raises.  The
exception propagates to the caller, but the field now holds the filtered
state, different from its pre-cycle value — the cycle was not atomic. -/
theorem C3_atomic_failure_counterexample :
    on_change { apply_constraints := fun sel =>
        if sel = [("f", ["a", "b"])] then some [("f", ["a"])] else none } 5
        [("f", FieldWidget.selectMultiple ["a", "b"] ["a", "b"])]
      = .error (.constraintError [("f", FieldWidget.selectMultiple ["a"] ["a"])])
    ∧ [("f", FieldWidget.selectMultiple ["a"] ["a"])]
        ≠ [("f", FieldWidget.selectMultiple ["a", "b"] ["a", "b"])] :=
  ⟨rfl, by decide⟩

/-- Witness for C3 amended: a failing constraint call leaves the one-field
form untouched inside the propagated error. -/
theorem C3_atomic_failure_amended_witness :
    on_change { apply_constraints := fun _ => none } 2
        [("f", FieldWidget.selectMultiple ["a"] ["a"])]
      = .error (.constraintError [("f", FieldWidget.selectMultiple ["a"] ["a"])]) :=
  C3_atomic_failure_amended { apply_constraints := fun _ => none } 2
    [("f", FieldWidget.selectMultiple ["a"] ["a"])] rfl
